import Mathlib

/-!
Verification of the disk check (`checks.d/disk.py`).

The development shallowly embeds the check. Numeric metric values are
modelled as rationals; Python dictionaries of metrics become association
lists keyed by metric name (all keys written by the code are pairwise
distinct, so this is faithful); the external data sources (psutil
partitions, `psutil.disk_usage`, `os.statvfs`, `psutil.disk_io_counters`,
the `df` output) are inputs to the embedded pass. Fallible Python code
(list indexing and `float()` parsing, which raise IndexError/ValueError)
is embedded in `Option`, `none` standing for a raised exception that
aborts the pass.
-/

namespace DiskCheck

/-- Helpers mirroring Python primitives, written by structural recursion on
character lists so that concrete inputs evaluate inside the kernel. -/
def wordsAux : List Char → List Char → List (List Char)
  | [], cur => if cur.isEmpty then [] else [cur.reverse]
  | c :: rest, cur =>
    if c.isWhitespace then
      if cur.isEmpty then wordsAux rest [] else cur.reverse :: wordsAux rest []
    else wordsAux rest (c :: cur)

/-- Models Python `line.strip().split()`: split on whitespace runs, dropping
empty fields. -/
def pySplit (l : String) : List String := (wordsAux l.toList []).map String.mk

/-- Models Python `s.split(chr(10))`: split on newlines, keeping empty segments. -/
def splitNl : List Char → List (List Char)
  | [] => [[]]
  | c :: rest =>
    if c = '\n' then [] :: splitNl rest
    else
      match splitNl rest with
      | seg :: segs => (c :: seg) :: segs
      | [] => [[c]]

/-- Models Python `df_output.split` on newline, producing the raw lines. -/
def pyLines (s : String) : List String := (splitNl s.toList).map String.mk

/-- Models Python `str.isdigit` on ASCII input: non-empty and all digits. -/
def pyIsdigit (s : String) : Bool :=
  !s.toList.isEmpty && s.toList.all (fun c => c.isDigit)

/-- Numeric value of a digit string, accumulator style. -/
def digitsToNatAux (acc : Nat) : List Char → Nat
  | [] => acc
  | c :: rest => digitsToNatAux (acc * 10 + (c.toNat - 48)) rest

/-- Models Python `float(s)` restricted to the unsigned integral numerals that
appear in kilobyte-unit `df` tables (the only inputs these claims feed it);
any other string is `none`, standing for the ValueError that `float` raises
on non-numeric fields. -/
def pyFloat (s : String) : Option ℚ :=
  if pyIsdigit s then some ((digitsToNatAux 0 s.toList : Nat) : ℚ) else none

/-- Generic concatenation of per-element gauge lists; models the emission
loop that appends every gauge produced while iterating a list. -/
def concatMap (f : α → List β) : List α → List β
  | [] => []
  | x :: xs => f x ++ concatMap f xs

/-- Reads an association list of metrics at a metric name, as a Python dict
read would. -/
def lookupMetric (name : String) : List (String × ℚ) → Option ℚ
  | [] => none
  | (k, v) :: rest => if k = name then some v else lookupMetric name rest

/-- Configuration of one pass, as left by `_load_conf`. The compiled
`excluded_disk_re` regex is modelled by its match predicate on device names
(`re.match` truthiness). -/
structure Conf where
  use_mount : Bool
  excluded_filesystems : List String
  excluded_disks : List String
  excluded_disk_re : String → Bool
  tag_by_filesystem : Bool
  all_partitions : Bool

/-- Raw instance configuration read by `_load_conf`. The boolean options are
modelled after `_is_affirmative` parsing (that helper lives in the external
`config` module); `excluded_disk_re` is `none` when the key is absent, in
which case `instance.get` supplies the default pattern. -/
structure RawInstance where
  use_mount : Bool
  excluded_filesystems : List String
  excluded_disks : List String
  excluded_disk_re : Option String
  tag_by_filesystem : Bool
  all_partitions : Bool

/-- Relevant slice of the agent-level configuration: the legacy
`device_blacklist_re` value, absent when unset. -/
structure AgentConfig where
  device_blacklist_re : Option String

/-- Embeds `_load_conf`. Regex compilation (`re.compile`) is modelled by the
ambient function `reCompile` from pattern source to match predicate; it is
applied exactly once here, at configuration-load time. -/
def _load_conf (reCompile : String → String → Bool) (inst : RawInstance)
    (agentConfig : AgentConfig) : Conf :=
  let re0 := inst.excluded_disk_re.getD "^$"
  let re1 :=
    match agentConfig.device_blacklist_re with
    | some legacy => if re0 = "^$" then legacy else re0
    | none => re0
  { use_mount := inst.use_mount
    excluded_filesystems := inst.excluded_filesystems
    excluded_disks := inst.excluded_disks
    excluded_disk_re := reCompile re1
    tag_by_filesystem := inst.tag_by_filesystem
    all_partitions := inst.all_partitions }

/-- Match predicate of the compiled default pattern, which matches only the
empty device name. -/
def reEmptyOnly (s : String) : Bool := s == ""

/-- Built-in list of fake devices, from the class attribute `FAKE_DEVICES`. -/
def FAKE_DEVICES : List String := ["udev", "sysfs", "rpc_pipefs", "proc", "devpts"]

/-- Embeds `_exclude_disk`. -/
def _exclude_disk (conf : Conf) (name filesystem : String) : Bool :=
  FAKE_DEVICES.contains name ||
  conf.excluded_disks.contains name ||
  conf.excluded_disk_re name ||
  conf.excluded_filesystems.contains filesystem

/-- One psutil partition record. psutil reports `opts` as a comma-separated
option string; it is modelled as the list of its option flags, so that the
Python containment test of the flag cdrom becomes list membership. -/
structure Part where
  device : String
  fstype : String
  mountpoint : String
  opts : List String
  deriving DecidableEq

/-- Platform flags queried through the `Platform` utility. -/
structure Plat where
  is_win32 : Bool
  is_unix : Bool

/-- Embeds `_exclude_disk_psutil`. -/
def _exclude_disk_psutil (conf : Conf) (pf : Plat) (part : Part) : Bool :=
  (pf.is_win32 && (part.opts.contains "cdrom" || part.fstype == "")) ||
  _exclude_disk conf part.device part.fstype

/-- Result of `psutil.disk_usage` for one mountpoint, in bytes plus a percent
field. -/
structure Usage where
  total : ℚ
  used : ℚ
  free : ℚ
  percent : ℚ

/-- Result of `os.statvfs` for one mountpoint: inode counts. -/
structure Statvfs where
  f_files : Nat
  f_ffree : Nat
  deriving DecidableEq

/-- One entry of `psutil.disk_io_counters`, in milliseconds. -/
structure IoCounter where
  read_time : ℚ
  write_time : ℚ

/-- Disk metric name; the source formats `system.disk.` followed by the
metric suffix. -/
def METRIC_DISK (s : String) : String := String.append "system.disk." s

/-- Inode metric name; the source formats `system.fs.inodes.` followed by
the metric suffix. -/
def METRIC_INODE (s : String) : String := String.append "system.fs.inodes." s

/-- Embeds `_collect_inodes_metrics`: the inode metrics for one mountpoint,
guarded against a zero inode total. -/
def _collect_inodes_metrics (statvfs : String → Statvfs) (mountpoint : String) :
    List (String × ℚ) :=
  let inodes := statvfs mountpoint
  if inodes.f_files ≠ 0 then
    let total : ℚ := inodes.f_files
    let free : ℚ := inodes.f_ffree
    [(METRIC_INODE "total", total),
     (METRIC_INODE "free", free),
     (METRIC_INODE "used", total - free),
     (METRIC_INODE "in_use", (total - free) / total)]
  else []

/-- Embeds `_collect_part_metrics`: byte counts are divided by 1024 for the
legacy kilobyte unit, the percent field by 100; on unix platforms the inode
metrics of the mountpoint are added to the dictionary (their keys are
disjoint from the disk keys, so the dict update is an append). -/
def _collect_part_metrics (pf : Plat) (usage : String → Usage)
    (statvfs : String → Statvfs) (part : Part) : List (String × ℚ) :=
  let u := usage part.mountpoint
  [(METRIC_DISK "total", u.total / 1024),
   (METRIC_DISK "used", u.used / 1024),
   (METRIC_DISK "free", u.free / 1024),
   (METRIC_DISK "in_use", u.percent / 100)] ++
  (if pf.is_unix then _collect_inodes_metrics statvfs part.mountpoint else [])

/-- One emitted gauge call: `(metric_name, value, tags, device_name)`. -/
structure Gauge where
  metric : String
  value : ℚ
  tags : List String
  device_name : String

/-- Gauges emitted for one accepted partition inside the
`collect_metrics_psutil` loop. -/
def partGauges (conf : Conf) (pf : Plat) (usage : String → Usage)
    (statvfs : String → Statvfs) (p : Part) : List Gauge :=
  let tags := if conf.tag_by_filesystem then [p.fstype] else []
  let device_name := if conf.use_mount then p.mountpoint else p.device
  (_collect_part_metrics pf usage statvfs p).map
    (fun m => Gauge.mk m.1 m.2 tags device_name)

/-- One entry of the per-pass `_valid_disks` index: accepted device mapped to
its fstype and mountpoint. -/
structure ValidDisk where
  device : String
  fstype : String
  mountpoint : String
  deriving DecidableEq

/-- Dictionary write `_valid_disks[device] = [fstype, mountpoint]`: replaces
the entry at an existing key, otherwise adds one. -/
def vdInsert (acc : List ValidDisk) (e : ValidDisk) : List ValidDisk :=
  if acc.any (fun v => v.device == e.device) then
    acc.map (fun v => if v.device == e.device then e else v)
  else acc ++ [e]

/-- Builds the `_valid_disks` index exactly as the `collect_metrics_psutil`
loop does: every partition passing the exclusion checks is written into it. -/
def buildValidDisks (conf : Conf) (pf : Plat) (parts : List Part) : List ValidDisk :=
  parts.foldl
    (fun acc p =>
      if _exclude_disk_psutil conf pf p then acc
      else vdInsert acc (ValidDisk.mk p.device p.fstype p.mountpoint))
    []

/-- Models the match of the pattern built as start-anchor, optional `/dev/`,
the raw counter key, end-anchor, against a candidate device name, for raw
keys free of regex metacharacters (the short kernel names psutil produces):
the candidate is the key itself or `/dev/` followed by the key. -/
def matchesDevPattern (disk_name d : String) : Bool :=
  d == disk_name || d == String.append "/dev/" disk_name

/-- Gauges contributed by one raw I/O-counter entry in
`collect_latency_metrics`: filter the index by the device pattern, take the
first match, skip silently when none. -/
def latencyGauges (conf : Conf) (valid : List ValidDisk) (disk_name : String)
    (ctr : IoCounter) : List Gauge :=
  match valid.filter (fun e => matchesDevPattern disk_name e.device) with
  | [] => []
  | e :: _ =>
    let tags := if conf.tag_by_filesystem then [e.fstype] else []
    let device_name := if conf.use_mount then e.mountpoint else e.device
    [Gauge.mk (METRIC_DISK "read_time_pct") (ctr.read_time * 100 / 1000) tags device_name,
     Gauge.mk (METRIC_DISK "write_time_pct") (ctr.write_time * 100 / 1000) tags device_name]

/-- Embeds `collect_latency_metrics` over the raw I/O-counter mapping. -/
def collect_latency_metrics (conf : Conf) (valid : List ValidDisk)
    (ioCounters : List (String × IoCounter)) : List Gauge :=
  concatMap (fun kv => latencyGauges conf valid kv.1 kv.2) ioCounters

/-- Embeds `collect_metrics_psutil`. The single source loop both fills the
`_valid_disks` index and emits the per-partition gauges; here it is split
into the index fold and a concatenation over the accepted partitions, which
yields the same index and the same gauges in the same order. Latency gauges
follow, as in the source. -/
def collect_metrics_psutil (conf : Conf) (pf : Plat) (parts : List Part)
    (usage : String → Usage) (statvfs : String → Statvfs)
    (ioCounters : List (String × IoCounter)) : List Gauge :=
  concatMap (partGauges conf pf usage statvfs)
    (parts.filter (fun p => !_exclude_disk_psutil conf pf p)) ++
  collect_latency_metrics conf (buildValidDisks conf pf parts) ioCounters

/-- Embeds `_keep_device`. Python short-circuits: an empty or one-field row
is dropped before `device[2]` is read, but on a two-field row the read of
`device[2]` raises IndexError, modelled as `none`. -/
def _keep_device (conf : Conf) (device : List String) : Option Bool :=
  match device with
  | [] => some false
  | [_] => some false
  | d0 :: d1 :: rest =>
    match rest.head? with
    | none => none
    | some d2 => some (pyIsdigit d2 && !_exclude_disk conf d0 d1)

/-- Modelled from the spec: the numeric-field test `_is_number` used by
`_flatten_devices` is inherited from the external `checks` base module and
is absent from the sources; the spec asks whether the first field of the
following line is purely numeric. -/
def _is_number (s : String) : Bool := pyIsdigit s

/-- Loop body of `_flatten_devices`, with the `previous` variable made
explicit. A one-field line is remembered (and stays in the list, Python
mutates lines in place without removing any); a following line whose first
field is numeric gets the remembered name prepended; any other line clears
the remembered name. The empty-line case is unreachable from
`_list_devices`, which filters empty lines first. -/
def _flatten_go (previous : Option String) : List (List String) → List (List String)
  | [] => []
  | parts :: rest =>
    match parts, previous with
    | [p], _ => [p] :: _flatten_go (some p) rest
    | f :: tl, some prev =>
      if _is_number f then (prev :: f :: tl) :: _flatten_go none rest
      else (f :: tl) :: _flatten_go none rest
    | _, _ => parts :: _flatten_go none rest

/-- Embeds `_flatten_devices`. -/
def _flatten_devices (devices : List (List String)) : List (List String) :=
  _flatten_go none devices

/-- Models the fallible filtering list comprehension of `_list_devices`: the
first row on which the predicate raises aborts the pass. -/
def filterOpt (p : α → Option Bool) : List α → Option (List α)
  | [] => some []
  | x :: xs =>
    match p x with
    | none => none
    | some b =>
      match filterOpt p xs with
      | none => none
      | some ys => some (if b then x :: ys else ys)

/-- Lines of the df output after field splitting, header dropping,
empty-line filtering and multi-line flattening — the records that
`_keep_device` then judges. -/
def rawRecords (df_output : String) : List (List String) :=
  _flatten_devices ((((pyLines df_output).map pySplit).drop 1).filter
    (fun l => !l.isEmpty))

/-- Embeds `_list_devices`. -/
def _list_devices (conf : Conf) (df_output : String) : Option (List (List String)) :=
  filterOpt (_keep_device conf) (rawRecords df_output)

/-- Tests of the used-percent field in `_extract_metrics`: more than one
character and a trailing percent sign. -/
def pctShaped (d5 : String) : Bool :=
  decide (d5.toList.length > 1) && d5.toList.getLast? == some '%'

/-- Used-percent field with its trailing percent sign stripped. -/
def stripLast (s : String) : String := String.mk s.toList.dropLast

/-- Contribution of the used-percent field to the metric dictionary: present
only when the field carries a trailing percent sign; parsing the stripped
numeral may itself raise (none). -/
def inUsePart (d5 : String) : Option (List (String × ℚ)) :=
  if pctShaped d5 then
    (pyFloat (stripLast d5)).map (fun p => [(METRIC_DISK "in_use", p / 100)])
  else some []

/-- Embeds `_extract_metrics`: reads fields 2, 3, 4 as numbers, field 5 as
the optional used percent, and appends the inode metrics of the mountpoint,
the last field. Out-of-range reads and failed numeric parses are `none`. -/
def _extract_metrics (statvfs : String → Statvfs) (device : List String) :
    Option (List (String × ℚ)) := do
  let d2 ← device[2]?
  let t ← pyFloat d2
  let d3 ← device[3]?
  let u ← pyFloat d3
  let d4 ← device[4]?
  let f ← pyFloat d4
  let d5 ← device[5]?
  let iu ← inUsePart d5
  let last ← device.getLast?
  some ([(METRIC_DISK "total", t),
         (METRIC_DISK "used", u),
         (METRIC_DISK "free", f)] ++ iu ++
        _collect_inodes_metrics statvfs last)

/-- Gauges emitted for one kept df record inside the
`collect_metrics_manually` loop. -/
def deviceGauges (conf : Conf) (statvfs : String → Statvfs)
    (device : List String) : Option (List Gauge) :=
  match (if conf.tag_by_filesystem then (device[1]?).map (fun d1 => [d1]) else some []) with
  | none => none
  | some tags =>
    match (if conf.use_mount then device.getLast? else device[0]?) with
    | none => none
    | some device_name =>
      match _extract_metrics statvfs device with
      | none => none
      | some ms => some (ms.map (fun m => Gauge.mk m.1 m.2 tags device_name))

/-- Fallible per-record emission loop of `collect_metrics_manually`: the
first record that raises aborts the pass. -/
def mapOpt (f : α → Option β) : List α → Option (List β)
  | [] => some []
  | x :: xs =>
    match f x with
    | none => none
    | some y =>
      match mapOpt f xs with
      | none => none
      | some ys => some (y :: ys)

/-- Embeds `collect_metrics_manually` applied to the captured df output. -/
def collect_metrics_manually (conf : Conf) (statvfs : String → Statvfs)
    (df_out : String) : Option (List Gauge) :=
  match _list_devices conf df_out with
  | none => none
  | some devices =>
    match mapOpt (deviceGauges conf statvfs) devices with
    | none => none
    | some gss => some (concatMap id gss)

/-- Embeds `check` after configuration loading: exactly one of the two
discovery paths runs, selected by psutil availability. -/
def check (conf : Conf) (psutil_available : Bool) (pf : Plat) (parts : List Part)
    (usage : String → Usage) (statvfs : String → Statvfs)
    (ioCounters : List (String × IoCounter)) (df_out : String) : Option (List Gauge) :=
  if psutil_available then
    some (collect_metrics_psutil conf pf parts usage statvfs ioCounters)
  else collect_metrics_manually conf statvfs df_out

/-- Embeds the whole `check` entry point: `_load_conf` runs first, once, and
the rest of the pass consumes the configuration it produced. -/
def checkPass (reCompile : String → String → Bool) (inst : RawInstance)
    (agentConfig : AgentConfig) (psutil_available : Bool) (pf : Plat)
    (parts : List Part) (usage : String → Usage) (statvfs : String → Statvfs)
    (ioCounters : List (String × IoCounter)) (df_out : String) : Option (List Gauge) :=
  check (_load_conf reCompile inst agentConfig) psutil_available pf parts usage
    statvfs ioCounters df_out

/-- Counts list elements satisfying a predicate (used to count emitted
gauges). -/
def countG (p : α → Bool) : List α → Nat
  | [] => 0
  | g :: gs => (if p g then 1 else 0) + countG p gs

/-- Device identity under which a partition is emitted. -/
def partIdentity (conf : Conf) (p : Part) : String :=
  if conf.use_mount then p.mountpoint else p.device

/-- Device identity under which a text record is emitted: the first field,
or the last field when use_mount is set; none when the record is too short
for the read. -/
def textIdentity (conf : Conf) (d : List String) : Option String :=
  if conf.use_mount then d.getLast? else d[0]?

/-- The claim-side keep predicate, written from the words of the spec: more
than one field, block-count field at index 2 purely numeric, and the
exclusion predicate false on the device name and filesystem type. -/
def keepSpec (conf : Conf) (device : List String) : Bool :=
  !device.isEmpty && decide (device.length > 1) &&
  pyIsdigit ((device[2]?).getD "") &&
  !_exclude_disk conf ((device[0]?).getD "") ((device[1]?).getD "")

/-- Benign default configuration: no configured exclusions, the compiled
default pattern matching only the empty device name, defaults for the
boolean options. -/
def confDefault : Conf :=
  { use_mount := false
    excluded_filesystems := []
    excluded_disks := []
    excluded_disk_re := reEmptyOnly
    tag_by_filesystem := false
    all_partitions := true }

/-!
Theorems. Each claim of the specification is settled by one theorem below;
shared helper lemmas come first.
-/

theorem lookupMetric_append_left {name : String} {xs ys : List (String × ℚ)} {v : ℚ}
    (h : lookupMetric name xs = some v) : lookupMetric name (xs ++ ys) = some v := by
  induction xs with
  | nil => simp [lookupMetric] at h
  | cons x rest ih =>
    obtain ⟨k, w⟩ := x
    by_cases hk : k = name
    · simp only [lookupMetric, if_pos hk] at h ⊢
      exact h
    · simp only [lookupMetric, if_neg hk] at h ⊢
      exact ih h

theorem lookupMetric_append_right {name : String} {xs ys : List (String × ℚ)}
    (h : lookupMetric name xs = none) :
    lookupMetric name (xs ++ ys) = lookupMetric name ys := by
  induction xs with
  | nil => rfl
  | cons x rest ih =>
    obtain ⟨k, w⟩ := x
    by_cases hk : k = name
    · simp only [lookupMetric, if_pos hk] at h
      exact Option.noConfusion h
    · simp only [lookupMetric, if_neg hk] at h ⊢
      exact ih h

/-- C5: the inode-metric computation returns no metrics at all when the
inode total is zero, and otherwise exactly the four metrics with
total, free, used = total - free and in_use = used / total; in particular a
sample with 10 total and 9 free inodes yields total 10, free 9, used 1 and
in_use one tenth. -/
theorem inodes_metrics_zero_guard_and_values
    (statvfs : String → Statvfs) (mp : String) :
    ((statvfs mp).f_files = 0 → _collect_inodes_metrics statvfs mp = []) ∧
    ((statvfs mp).f_files ≠ 0 →
      _collect_inodes_metrics statvfs mp =
        [(METRIC_INODE "total", ((statvfs mp).f_files : ℚ)),
         (METRIC_INODE "free", ((statvfs mp).f_ffree : ℚ)),
         (METRIC_INODE "used", ((statvfs mp).f_files : ℚ) - ((statvfs mp).f_ffree : ℚ)),
         (METRIC_INODE "in_use",
           (((statvfs mp).f_files : ℚ) - ((statvfs mp).f_ffree : ℚ)) /
             ((statvfs mp).f_files : ℚ))]) := by
  constructor
  · intro h
    simp [_collect_inodes_metrics, h]
  · intro h
    simp [_collect_inodes_metrics, h]

theorem inodes_metrics_zero_guard_and_values_witness :
    _collect_inodes_metrics (fun _ => Statvfs.mk 10 9) "/" =
      [(METRIC_INODE "total", 10), (METRIC_INODE "free", 9),
       (METRIC_INODE "used", 1), (METRIC_INODE "in_use", 1 / 10)] ∧
    _collect_inodes_metrics (fun _ => Statvfs.mk 0 5) "/" = [] := by
  constructor
  · have h := (inodes_metrics_zero_guard_and_values (fun _ => Statvfs.mk 10 9) "/").2
      (by decide)
    rw [h]
    norm_num
  · exact (inodes_metrics_zero_guard_and_values (fun _ => Statvfs.mk 0 5) "/").1 rfl

/-- C6: on the structured path the space metrics are the byte counts of the
usage sample divided by 1024 (kilobyte units) and in_use is the percent
field divided by 100, a ratio lying in the unit interval whenever the
percent lies in 0..100. -/
theorem part_metrics_kilobyte_units
    (pf : Plat) (usage : String → Usage) (statvfs : String → Statvfs) (part : Part) :
    lookupMetric (METRIC_DISK "total") (_collect_part_metrics pf usage statvfs part) =
      some ((usage part.mountpoint).total / 1024) ∧
    lookupMetric (METRIC_DISK "used") (_collect_part_metrics pf usage statvfs part) =
      some ((usage part.mountpoint).used / 1024) ∧
    lookupMetric (METRIC_DISK "free") (_collect_part_metrics pf usage statvfs part) =
      some ((usage part.mountpoint).free / 1024) ∧
    lookupMetric (METRIC_DISK "in_use") (_collect_part_metrics pf usage statvfs part) =
      some ((usage part.mountpoint).percent / 100) ∧
    (0 ≤ (usage part.mountpoint).percent → (usage part.mountpoint).percent ≤ 100 →
      0 ≤ (usage part.mountpoint).percent / 100 ∧ (usage part.mountpoint).percent / 100 ≤ 1) := by
  refine ⟨?_, ?_, ?_, ?_, ?_⟩
  · simp only [_collect_part_metrics, List.cons_append, lookupMetric, if_pos rfl]
    simp
  · simp only [_collect_part_metrics, List.cons_append, lookupMetric,
      if_neg (by decide : ¬ (METRIC_DISK "total" = METRIC_DISK "used")), if_pos rfl]
    simp
  · simp only [_collect_part_metrics, List.cons_append, lookupMetric,
      if_neg (by decide : ¬ (METRIC_DISK "total" = METRIC_DISK "free")),
      if_neg (by decide : ¬ (METRIC_DISK "used" = METRIC_DISK "free")), if_pos rfl]
    simp
  · simp only [_collect_part_metrics, List.cons_append, lookupMetric,
      if_neg (by decide : ¬ (METRIC_DISK "total" = METRIC_DISK "in_use")),
      if_neg (by decide : ¬ (METRIC_DISK "used" = METRIC_DISK "in_use")),
      if_neg (by decide : ¬ (METRIC_DISK "free" = METRIC_DISK "in_use")), if_pos rfl]
    simp
  · intro h0 h100
    constructor
    · positivity
    · rw [div_le_one (by norm_num : (0 : ℚ) < 100)]
      exact h100

theorem part_metrics_kilobyte_units_witness :
    lookupMetric (METRIC_DISK "total")
      (_collect_part_metrics (Plat.mk false true)
        (fun _ => Usage.mk (5 * 1024) (4 * 1024) (1 * 1024) 80)
        (fun _ => Statvfs.mk 0 0) (Part.mk "/dev/sda1" "ext4" "/" [])) = some 5 ∧
    lookupMetric (METRIC_DISK "used")
      (_collect_part_metrics (Plat.mk false true)
        (fun _ => Usage.mk (5 * 1024) (4 * 1024) (1 * 1024) 80)
        (fun _ => Statvfs.mk 0 0) (Part.mk "/dev/sda1" "ext4" "/" [])) = some 4 ∧
    lookupMetric (METRIC_DISK "free")
      (_collect_part_metrics (Plat.mk false true)
        (fun _ => Usage.mk (5 * 1024) (4 * 1024) (1 * 1024) 80)
        (fun _ => Statvfs.mk 0 0) (Part.mk "/dev/sda1" "ext4" "/" [])) = some 1 ∧
    lookupMetric (METRIC_DISK "in_use")
      (_collect_part_metrics (Plat.mk false true)
        (fun _ => Usage.mk (5 * 1024) (4 * 1024) (1 * 1024) 80)
        (fun _ => Statvfs.mk 0 0) (Part.mk "/dev/sda1" "ext4" "/" [])) = some (80 / 100) := by
  obtain ⟨h1, h2, h3, h4, h5⟩ := part_metrics_kilobyte_units (Plat.mk false true)
    (fun _ => Usage.mk (5 * 1024) (4 * 1024) (1 * 1024) 80)
    (fun _ => Statvfs.mk 0 0) (Part.mk "/dev/sda1" "ext4" "/" [])
  refine ⟨?_, ?_, ?_, ?_⟩
  · rw [h1]; norm_num
  · rw [h2]; norm_num
  · rw [h3]; norm_num
  · rw [h4]

/-- C7: the latency correlator handles each raw counter key by filtering the
accepted-device index with the anchored optional-dev-dir pattern; a key with
no matching accepted device is skipped silently, otherwise the first match
receives read_time_pct and write_time_pct equal to the millisecond counters
times 100 over 1000; the raw key sda1 matches the accepted device /dev/sda1
and not /dev/sdb1. -/
theorem latency_correlation_behaviour :
    (∀ (conf : Conf) (valid : List ValidDisk) (key : String) (ctr : IoCounter)
       (ios : List (String × IoCounter)),
       valid.filter (fun e => matchesDevPattern key e.device) = [] →
       collect_latency_metrics conf valid ((key, ctr) :: ios) =
         collect_latency_metrics conf valid ios) ∧
    (∀ (conf : Conf) (valid : List ValidDisk) (key : String) (ctr : IoCounter)
       (ios : List (String × IoCounter)) (e : ValidDisk) (es : List ValidDisk),
       valid.filter (fun x => matchesDevPattern key x.device) = e :: es →
       collect_latency_metrics conf valid ((key, ctr) :: ios) =
         [Gauge.mk (METRIC_DISK "read_time_pct") (ctr.read_time * 100 / 1000)
            (if conf.tag_by_filesystem then [e.fstype] else [])
            (if conf.use_mount then e.mountpoint else e.device),
          Gauge.mk (METRIC_DISK "write_time_pct") (ctr.write_time * 100 / 1000)
            (if conf.tag_by_filesystem then [e.fstype] else [])
            (if conf.use_mount then e.mountpoint else e.device)] ++
         collect_latency_metrics conf valid ios) ∧
    matchesDevPattern "sda1" "/dev/sda1" = true ∧
    matchesDevPattern "sda1" "/dev/sdb1" = false := by
  refine ⟨?_, ?_, by decide, by decide⟩
  · intro conf valid key ctr ios hf
    simp only [collect_latency_metrics, concatMap, latencyGauges, hf, List.nil_append]
  · intro conf valid key ctr ios e es hf
    simp only [collect_latency_metrics, concatMap, latencyGauges, hf]

theorem latency_correlation_behaviour_witness :
    collect_latency_metrics confDefault
      [ValidDisk.mk "/dev/sdb1" "ext4" "/b", ValidDisk.mk "/dev/sda1" "ext4" "/"]
      [("sda1", IoCounter.mk 15 25)] =
      [Gauge.mk (METRIC_DISK "read_time_pct") (3 / 2) [] "/dev/sda1",
       Gauge.mk (METRIC_DISK "write_time_pct") (5 / 2) [] "/dev/sda1"] := by
  have h := latency_correlation_behaviour.2.1 confDefault
    [ValidDisk.mk "/dev/sdb1" "ext4" "/b", ValidDisk.mk "/dev/sda1" "ext4" "/"]
    "sda1" (IoCounter.mk 15 25) [] (ValidDisk.mk "/dev/sda1" "ext4" "/") []
    (by decide)
  rw [h]
  norm_num [collect_latency_metrics, concatMap, confDefault]

/-- C8: configuration loading substitutes the legacy agent-level blacklist
regex for the exclusion regex exactly when the instance value is the default
pattern; an explicit non-default instance regex wins over the legacy value;
and the compiled configuration is produced once per pass, before any device
is examined: the whole pass output factors through the single result of
`_load_conf`, so two passes whose loaded configurations agree emit
identically. -/
theorem load_conf_legacy_fallback :
    (∀ (reCompile : String → String → Bool) (inst : RawInstance) (cfg : AgentConfig)
       (legacy : String),
       inst.excluded_disk_re.getD "^$" = "^$" → cfg.device_blacklist_re = some legacy →
       (_load_conf reCompile inst cfg).excluded_disk_re = reCompile legacy) ∧
    (∀ (reCompile : String → String → Bool) (inst : RawInstance) (cfg : AgentConfig)
       (r : String),
       inst.excluded_disk_re = some r → r ≠ "^$" →
       (_load_conf reCompile inst cfg).excluded_disk_re = reCompile r) ∧
    (∀ (reCompile : String → String → Bool) (inst : RawInstance) (cfg : AgentConfig),
       cfg.device_blacklist_re = none →
       (_load_conf reCompile inst cfg).excluded_disk_re =
         reCompile (inst.excluded_disk_re.getD "^$")) ∧
    (∀ (reCompile : String → String → Bool) (i1 i2 : RawInstance) (c1 c2 : AgentConfig)
       (psutil_available : Bool) (pf : Plat) (parts : List Part) (usage : String → Usage)
       (statvfs : String → Statvfs) (ioCounters : List (String × IoCounter)) (df : String),
       _load_conf reCompile i1 c1 = _load_conf reCompile i2 c2 →
       checkPass reCompile i1 c1 psutil_available pf parts usage statvfs ioCounters df =
         checkPass reCompile i2 c2 psutil_available pf parts usage statvfs ioCounters df) := by
  refine ⟨?_, ?_, ?_, ?_⟩
  · intro reCompile inst cfg legacy hdef hlegacy
    simp [_load_conf, hlegacy, hdef]
  · intro reCompile inst cfg r hr hne
    cases hcfg : cfg.device_blacklist_re with
    | none => simp [_load_conf, hcfg, hr]
    | some legacy => simp [_load_conf, hcfg, hr, hne]
  · intro reCompile inst cfg hnone
    simp [_load_conf, hnone]
  · intro reCompile i1 i2 c1 c2 psutil_available pf parts usage statvfs ioCounters df h
    simp only [checkPass, h]

theorem load_conf_legacy_fallback_witness :
    (_load_conf (fun pat s => pat == s)
      (RawInstance.mk false [] [] none false true)
      (AgentConfig.mk (some "legacydev"))).excluded_disk_re =
      (fun pat s => pat == s) "legacydev" ∧
    (_load_conf (fun pat s => pat == s)
      (RawInstance.mk false [] [] (some "sd[ab]") false true)
      (AgentConfig.mk (some "legacydev"))).excluded_disk_re =
      (fun pat s => pat == s) "sd[ab]" := by
  constructor
  · exact load_conf_legacy_fallback.1 (fun pat s => pat == s)
      (RawInstance.mk false [] [] none false true)
      (AgentConfig.mk (some "legacydev")) "legacydev" rfl rfl
  · exact load_conf_legacy_fallback.2.1 (fun pat s => pat == s)
      (RawInstance.mk false [] [] (some "sd[ab]") false true)
      (AgentConfig.mk (some "legacydev")) "sd[ab]" rfl (by decide)

theorem keep_device_total (conf : Conf) (d : List String) (hn2 : d.length ≠ 2) :
    _keep_device conf d = some (keepSpec conf d) := by
  cases d with
  | nil => rfl
  | cons x d1 =>
    cases d1 with
    | nil => rfl
    | cons y d2 =>
      cases d2 with
      | nil => exact absurd rfl hn2
      | cons z rest =>
        show some (pyIsdigit z && !_exclude_disk conf x y) =
          some (keepSpec conf (x :: y :: z :: rest))
        have hlen : decide ((x :: y :: z :: rest).length > 1) = true := by simp
        simp [keepSpec, hlen]

theorem filterOpt_keep (conf : Conf) (l : List (List String))
    (h : ∀ d ∈ l, d.length ≠ 2) :
    filterOpt (_keep_device conf) l = some (l.filter (fun d => keepSpec conf d)) := by
  induction l with
  | nil => rfl
  | cons d rest ih =>
    have hd := keep_device_total conf d (h d (List.mem_cons_self d rest))
    have ihr := ih (fun x hx => h x (List.mem_cons_of_mem d hx))
    simp only [filterOpt, hd, ihr, List.filter_cons]

/-- C2 (with the numeric test modelled from the spec): a one-field line is
remembered as the pending device name; when the immediately following line
starts with a purely numeric field the pending name is prepended to its
fields and cleared; otherwise the pending name is discarded; and the
two-line record verylongdevicename followed by the 4096 2048 2048 50% /mnt
data line yields, through the parser, exactly one kept record whose device
field is verylongdevicename. -/
theorem flatten_pending_device_name :
    (∀ (p : String) (rest : List (List String)) (previous : Option String),
       _flatten_go previous ([p] :: rest) = [p] :: _flatten_go (some p) rest) ∧
    (∀ (prev f x : String) (tl : List String) (rest : List (List String)),
       _is_number f = true →
       _flatten_go (some prev) ((f :: x :: tl) :: rest) =
         (prev :: f :: x :: tl) :: _flatten_go none rest) ∧
    (∀ (prev f x : String) (tl : List String) (rest : List (List String)),
       _is_number f = false →
       _flatten_go (some prev) ((f :: x :: tl) :: rest) =
         (f :: x :: tl) :: _flatten_go none rest) ∧
    (∀ (f x : String) (tl : List String) (rest : List (List String)),
       _flatten_go none ((f :: x :: tl) :: rest) =
         (f :: x :: tl) :: _flatten_go none rest) ∧
    _list_devices confDefault
        "Filesystem Type 1024-blocks Used Available Capacity Mounted-on\nverylongdevicename\n4096 2048 2048 50% /mnt" =
      some [["verylongdevicename", "4096", "2048", "2048", "50%", "/mnt"]] := by
  refine ⟨?_, ?_, ?_, ?_, by decide⟩
  · intro p rest previous
    cases previous <;> rfl
  · intro prev f x tl rest h
    simp [_flatten_go, h]
  · intro prev f x tl rest h
    simp [_flatten_go, h]
  · intro f x tl rest
    rfl

theorem flatten_pending_device_name_witness :
    _flatten_go (some "verylongdevicename") [["4096", "2048", "2048", "50%", "/mnt"]] =
      [["verylongdevicename", "4096", "2048", "2048", "50%", "/mnt"]] := by
  have h := flatten_pending_device_name.2.1 "verylongdevicename" "4096" "2048"
    ["2048", "50%", "/mnt"] [] (by decide)
  simpa [_flatten_go] using h

/-- C3 counterexample: on a two-field row the keep test reads the field at
index 2 and raises IndexError (modelled as none), so the parser errors out
instead of silently dropping the malformed row, while the claim-side keep
predicate says the row should merely be dropped. -/
theorem list_devices_two_field_row_raises :
    _list_devices confDefault "Filesystem\nfoo bar" = none ∧
    (rawRecords "Filesystem\nfoo bar").filter (fun d => keepSpec confDefault d) = [] := by
  constructor
  · decide
  · decide

/-- C3 (amended): a judged record is kept iff it is non-empty with more than
one field, its index-2 field is purely numeric and the exclusion predicate
is false on its first two fields — in particular a row whose index-2 field
is not numeric is dropped — and no error is raised for malformed rows other
than rows of exactly two fields, on which reading the index-2 field raises
an index error; when no row has exactly two fields the parser returns
precisely the records satisfying the keep criteria. -/
theorem list_devices_keep_criteria :
    (∀ (conf : Conf) (d : List String) (b : Bool), _keep_device conf d = some b →
       (b = true ↔ keepSpec conf d = true)) ∧
    (∀ (conf : Conf) (d0 d1 : String), _keep_device conf [d0, d1] = none) ∧
    (∀ (conf : Conf) (df : String), (∀ d ∈ rawRecords df, d.length ≠ 2) →
       _list_devices conf df = some ((rawRecords df).filter (fun d => keepSpec conf d))) := by
  refine ⟨?_, ?_, ?_⟩
  · intro conf d b h
    cases d with
    | nil =>
      injection h with h
      subst h
      simp [keepSpec]
    | cons x d1 =>
      cases d1 with
      | nil =>
        injection h with h
        subst h
        simp [keepSpec]
      | cons y d2 =>
        cases d2 with
        | nil => exact Option.noConfusion h
        | cons z rest =>
          have ht : _keep_device conf (x :: y :: z :: rest) =
              some (keepSpec conf (x :: y :: z :: rest)) :=
            keep_device_total conf (x :: y :: z :: rest)
              (by simp only [List.length_cons]; omega)
          rw [ht] at h
          injection h with h
          subst h
          exact Iff.rfl
  · intro conf d0 d1
    rfl
  · intro conf df h
    exact filterOpt_keep conf (rawRecords df) h

theorem list_devices_keep_criteria_witness :
    _list_devices confDefault
        "Filesystem Type 1024-blocks Used Available Capacity Mounted-on\n/dev/sda1 ext4 524288 171642 352646 33% /\nmaphosts tmpfs - - - - /net" =
      some [["/dev/sda1", "ext4", "524288", "171642", "352646", "33%", "/"]] := by
  rw [list_devices_keep_criteria.2.2 confDefault
    "Filesystem Type 1024-blocks Used Available Capacity Mounted-on\n/dev/sda1 ext4 524288 171642 352646 33% /\nmaphosts tmpfs - - - - /net"
    (by decide)]
  decide

theorem lookup_disk_in_use_inodes (statvfs : String → Statvfs) (mp : String) :
    lookupMetric (METRIC_DISK "in_use") (_collect_inodes_metrics statvfs mp) = none := by
  unfold _collect_inodes_metrics
  by_cases h : (statvfs mp).f_files ≠ 0
  · simp only [if_pos h, lookupMetric,
      if_neg (by decide : ¬ (METRIC_INODE "total" = METRIC_DISK "in_use")),
      if_neg (by decide : ¬ (METRIC_INODE "free" = METRIC_DISK "in_use")),
      if_neg (by decide : ¬ (METRIC_INODE "used" = METRIC_DISK "in_use")),
      if_neg (by decide : ¬ (METRIC_INODE "in_use" = METRIC_DISK "in_use"))]
  · simp only [if_neg h, lookupMetric]

theorem getLast_cons_exists (d0 d1 d2 d3 d4 d5 : String) (rest : List String) :
    ∃ a, (d0 :: d1 :: d2 :: d3 :: d4 :: d5 :: rest).getLast? = some a := by
  cases hl : (d0 :: d1 :: d2 :: d3 :: d4 :: d5 :: rest).getLast? with
  | none => exact absurd (List.getLast?_eq_none_iff.mp hl) (by simp)
  | some a => exact ⟨a, rfl⟩

/-- C4: a kept text record is read off positionally: total, used and free
come from fields 2, 3 and 4 as plain numbers with no unit conversion, the
in-use metric is present exactly when field 5 carries a trailing percent
sign — then it is the stripped numeral divided by 100 — and absent
otherwise without error, and the emitted gauges carry the device identity
field 0, or the last field when use_mount is set. -/
theorem extract_metrics_text_fields
    (conf : Conf) (statvfs : String → Statvfs)
    (d0 d1 d2 d3 d4 d5 : String) (rest : List String) (iu : List (String × ℚ))
    (hkeep : _keep_device conf (d0 :: d1 :: d2 :: d3 :: d4 :: d5 :: rest) = some true)
    (h3 : pyIsdigit d3 = true) (h4 : pyIsdigit d4 = true)
    (hiu : inUsePart d5 = some iu) :
    ∃ ms, _extract_metrics statvfs (d0 :: d1 :: d2 :: d3 :: d4 :: d5 :: rest) = some ms ∧
      lookupMetric (METRIC_DISK "total") ms = pyFloat d2 ∧
      lookupMetric (METRIC_DISK "used") ms = pyFloat d3 ∧
      lookupMetric (METRIC_DISK "free") ms = pyFloat d4 ∧
      (pctShaped d5 = true →
        lookupMetric (METRIC_DISK "in_use") ms =
          (pyFloat (stripLast d5)).map (fun p => p / 100)) ∧
      (pctShaped d5 = false → lookupMetric (METRIC_DISK "in_use") ms = none) ∧
      (∀ gl g,
        deviceGauges conf statvfs (d0 :: d1 :: d2 :: d3 :: d4 :: d5 :: rest) = some gl →
        g ∈ gl →
        (conf.use_mount = false → g.device_name = d0) ∧
        (conf.use_mount = true →
          (d0 :: d1 :: d2 :: d3 :: d4 :: d5 :: rest).getLast? = some g.device_name)) := by
  have hband : (pyIsdigit d2 && !_exclude_disk conf d0 d1) = true := by
    injection hkeep
  have hd2 : pyIsdigit d2 = true := (Bool.and_eq_true _ _ |>.mp hband).1
  have e2 : pyFloat d2 = some ((digitsToNatAux 0 d2.toList : ℕ) : ℚ) := by
    simp [pyFloat, hd2]
  have e3 : pyFloat d3 = some ((digitsToNatAux 0 d3.toList : ℕ) : ℚ) := by
    simp [pyFloat, h3]
  have e4 : pyFloat d4 = some ((digitsToNatAux 0 d4.toList : ℕ) : ℚ) := by
    simp [pyFloat, h4]
  generalize hq2 : ((digitsToNatAux 0 d2.toList : ℕ) : ℚ) = q2 at e2
  generalize hq3 : ((digitsToNatAux 0 d3.toList : ℕ) : ℚ) = q3 at e3
  generalize hq4 : ((digitsToNatAux 0 d4.toList : ℕ) : ℚ) = q4 at e4
  obtain ⟨last, hlast⟩ := getLast_cons_exists d0 d1 d2 d3 d4 d5 rest
  have hms : _extract_metrics statvfs (d0 :: d1 :: d2 :: d3 :: d4 :: d5 :: rest) =
      some ([(METRIC_DISK "total", q2), (METRIC_DISK "used", q3),
             (METRIC_DISK "free", q4)] ++ iu ++
            _collect_inodes_metrics statvfs last) := by
    simp only [_extract_metrics, List.getElem?_cons_succ, List.getElem?_cons_zero,
      Option.bind_eq_bind, Option.some_bind, e2, e3, e4, hiu, hlast]
  have hbase : lookupMetric (METRIC_DISK "in_use")
      [(METRIC_DISK "total", q2), (METRIC_DISK "used", q3), (METRIC_DISK "free", q4)] = none := by
    simp only [lookupMetric,
      if_neg (by decide : ¬ (METRIC_DISK "total" = METRIC_DISK "in_use")),
      if_neg (by decide : ¬ (METRIC_DISK "used" = METRIC_DISK "in_use")),
      if_neg (by decide : ¬ (METRIC_DISK "free" = METRIC_DISK "in_use"))]
  refine ⟨_, hms, ?_, ?_, ?_, ?_, ?_, ?_⟩
  · rw [e2]
    apply lookupMetric_append_left
    apply lookupMetric_append_left
    simp only [lookupMetric, if_pos rfl]
    simp
  · rw [e3]
    apply lookupMetric_append_left
    apply lookupMetric_append_left
    simp only [lookupMetric,
      if_neg (by decide : ¬ (METRIC_DISK "total" = METRIC_DISK "used")), if_pos rfl]
    simp
  · rw [e4]
    apply lookupMetric_append_left
    apply lookupMetric_append_left
    simp only [lookupMetric,
      if_neg (by decide : ¬ (METRIC_DISK "total" = METRIC_DISK "free")),
      if_neg (by decide : ¬ (METRIC_DISK "used" = METRIC_DISK "free")), if_pos rfl]
    simp
  · intro hpct
    simp only [inUsePart, hpct, if_true] at hiu
    obtain ⟨p, hp, hiu2⟩ := Option.map_eq_some'.mp hiu
    subst hiu2
    rw [hp, List.append_assoc, lookupMetric_append_right hbase]
    simp only [lookupMetric, if_pos rfl, Option.map_some']
    simp
  · intro hpct
    simp only [inUsePart, hpct] at hiu
    simp only [Bool.false_eq_true, if_false] at hiu
    injection hiu with hiu2
    subst hiu2
    rw [List.append_assoc, lookupMetric_append_right hbase]
    simpa using lookup_disk_in_use_inodes statvfs last
  · intro gl g hgl hg
    constructor
    · intro hu
      cases htag : conf.tag_by_filesystem <;>
        simp only [deviceGauges, htag, hu, hms, Bool.false_eq_true, if_false, if_true,
          List.getElem?_cons_zero, List.getElem?_cons_succ, Option.map_some'] at hgl <;>
        injection hgl with hgl2 <;>
        subst hgl2 <;>
        obtain ⟨m, hm, rfl⟩ := List.mem_map.mp hg <;>
        rfl
    · intro hu
      rw [hlast]
      cases htag : conf.tag_by_filesystem <;>
        simp only [deviceGauges, htag, hu, hms, hlast, Bool.false_eq_true, if_false, if_true,
          List.getElem?_cons_zero, List.getElem?_cons_succ, Option.map_some'] at hgl <;>
        injection hgl with hgl2 <;>
        subst hgl2 <;>
        obtain ⟨m, hm, rfl⟩ := List.mem_map.mp hg <;>
        rfl

theorem extract_metrics_text_fields_witness :
    (_extract_metrics (fun _ => Statvfs.mk 0 0)
        ["/dev/sda1", "ext4", "524288", "171642", "352646", "33%", "/"]).bind
      (lookupMetric (METRIC_DISK "total")) = pyFloat "524288" ∧
    (_extract_metrics (fun _ => Statvfs.mk 0 0)
        ["/dev/sda1", "ext4", "524288", "171642", "352646", "33%", "/"]).bind
      (lookupMetric (METRIC_DISK "used")) = pyFloat "171642" ∧
    (_extract_metrics (fun _ => Statvfs.mk 0 0)
        ["/dev/sda1", "ext4", "524288", "171642", "352646", "33%", "/"]).bind
      (lookupMetric (METRIC_DISK "free")) = pyFloat "352646" ∧
    (_extract_metrics (fun _ => Statvfs.mk 0 0)
        ["/dev/sda1", "ext4", "524288", "171642", "352646", "33%", "/"]).bind
      (lookupMetric (METRIC_DISK "in_use")) =
      (pyFloat (stripLast "33%")).map (fun p => p / 100) := by
  obtain ⟨ms, hms, h1, h2, h3, h4, h5, h6⟩ := extract_metrics_text_fields confDefault
    (fun _ => Statvfs.mk 0 0) "/dev/sda1" "ext4" "524288" "171642" "352646" "33%" ["/"]
    [(METRIC_DISK "in_use", ((digitsToNatAux 0 (stripLast "33%").toList : ℕ) : ℚ) / 100)]
    (by decide) (by decide) (by decide) rfl
  refine ⟨?_, ?_, ?_, ?_⟩
  · rw [hms]; exact h1
  · rw [hms]; exact h2
  · rw [hms]; exact h3
  · rw [hms]; exact h4 (by decide)

/-- C10: the textual discovery path also collects inode metrics — the
extraction of a text record appends exactly the inode metrics that the
shared zero-guarded statvfs computation produces for the mountpoint taken
from the last field of the record. -/
theorem text_path_appends_inode_metrics
    (statvfs : String → Statvfs) (d0 d1 d2 d3 d4 d5 : String) (rest : List String)
    (q2 q3 q4 : ℚ) (iu : List (String × ℚ))
    (h2 : pyFloat d2 = some q2) (h3 : pyFloat d3 = some q3) (h4 : pyFloat d4 = some q4)
    (hiu : inUsePart d5 = some iu) :
    (∃ last, (d0 :: d1 :: d2 :: d3 :: d4 :: d5 :: rest).getLast? = some last ∧
       _extract_metrics statvfs (d0 :: d1 :: d2 :: d3 :: d4 :: d5 :: rest) =
         some ([(METRIC_DISK "total", q2), (METRIC_DISK "used", q3),
                (METRIC_DISK "free", q4)] ++ iu ++
               _collect_inodes_metrics statvfs last)) ∧
    (∀ mp, (statvfs mp).f_files = 0 → _collect_inodes_metrics statvfs mp = []) := by
  constructor
  · obtain ⟨last, hlast⟩ := getLast_cons_exists d0 d1 d2 d3 d4 d5 rest
    refine ⟨last, hlast, ?_⟩
    simp only [_extract_metrics, List.getElem?_cons_succ, List.getElem?_cons_zero,
      Option.bind_eq_bind, Option.some_bind, h2, h3, h4, hiu, hlast]
  · intro mp h
    simp [_collect_inodes_metrics, h]

theorem text_path_appends_inode_metrics_witness :
    _extract_metrics (fun _ => Statvfs.mk 10 9)
        ["verylongdevicename", "ext4", "4096", "2048", "2048", "50%", "/mnt"] =
      some ([(METRIC_DISK "total", ((digitsToNatAux 0 "4096".toList : ℕ) : ℚ)),
             (METRIC_DISK "used", ((digitsToNatAux 0 "2048".toList : ℕ) : ℚ)),
             (METRIC_DISK "free", ((digitsToNatAux 0 "2048".toList : ℕ) : ℚ))] ++
            [(METRIC_DISK "in_use",
              ((digitsToNatAux 0 (stripLast "50%").toList : ℕ) : ℚ) / 100)] ++
            _collect_inodes_metrics (fun _ => Statvfs.mk 10 9) "/mnt") := by
  obtain ⟨⟨last, hlast, hms⟩, hz⟩ := text_path_appends_inode_metrics
    (fun _ => Statvfs.mk 10 9) "verylongdevicename" "ext4" "4096" "2048" "2048" "50%" ["/mnt"]
    ((digitsToNatAux 0 "4096".toList : ℕ) : ℚ) ((digitsToNatAux 0 "2048".toList : ℕ) : ℚ)
    ((digitsToNatAux 0 "2048".toList : ℕ) : ℚ)
    [(METRIC_DISK "in_use", ((digitsToNatAux 0 (stripLast "50%").toList : ℕ) : ℚ) / 100)]
    rfl rfl rfl rfl
  have hl2 : "/mnt" = last :=
    Option.some_inj.mp ((show (["verylongdevicename", "ext4", "4096", "2048", "2048", "50%",
      "/mnt"] : List String).getLast? = some "/mnt" from rfl).symm.trans hlast)
  rw [← hl2] at hms
  exact hms

theorem mem_concatMap {f : α → List β} {b : β} {l : List α}
    (h : b ∈ concatMap f l) : ∃ a, a ∈ l ∧ b ∈ f a := by
  induction l with
  | nil => cases h
  | cons x xs ih =>
    simp only [concatMap] at h
    rcases List.mem_append.mp h with h1 | h1
    · exact ⟨x, List.mem_cons_self x xs, h1⟩
    · obtain ⟨a, ha, hb⟩ := ih h1
      exact ⟨a, List.mem_cons_of_mem x ha, hb⟩

theorem mem_vdInsert {acc : List ValidDisk} {e v : ValidDisk}
    (h : v ∈ vdInsert acc e) : v ∈ acc ∨ v = e := by
  unfold vdInsert at h
  by_cases hc : acc.any (fun x => x.device == e.device)
  · rw [if_pos hc] at h
    obtain ⟨x, hx, hxe⟩ := List.mem_map.mp h
    by_cases hd : x.device == e.device
    · rw [if_pos hd] at hxe
      exact Or.inr hxe.symm
    · rw [if_neg hd] at hxe
      exact Or.inl (hxe ▸ hx)
  · rw [if_neg hc] at h
    rcases List.mem_append.mp h with h1 | h1
    · exact Or.inl h1
    · exact Or.inr (by simpa using h1)

theorem mem_buildValidDisks (conf : Conf) (pf : Plat) (parts : List Part)
    (acc v : _) (h : v ∈ parts.foldl
      (fun acc p =>
        if _exclude_disk_psutil conf pf p then acc
        else vdInsert acc (ValidDisk.mk p.device p.fstype p.mountpoint)) acc) :
    v ∈ acc ∨ ∃ p, p ∈ parts ∧ _exclude_disk_psutil conf pf p = false ∧
      v = ValidDisk.mk p.device p.fstype p.mountpoint := by
  induction parts generalizing acc with
  | nil => exact Or.inl h
  | cons p ps ih =>
    simp only [List.foldl_cons] at h
    rcases ih _ h with h1 | h1
    · by_cases he : _exclude_disk_psutil conf pf p
      · rw [if_pos he] at h1
        exact Or.inl h1
      · rw [if_neg he] at h1
        rcases mem_vdInsert h1 with h2 | h2
        · exact Or.inl h2
        · exact Or.inr ⟨p, List.mem_cons_self p ps, by simpa using he, h2⟩
    · obtain ⟨q, hq, hqe, hv⟩ := h1
      exact Or.inr ⟨q, List.mem_cons_of_mem p hq, hqe, hv⟩

theorem partGauges_device_name {conf : Conf} {pf : Plat} {usage : String → Usage}
    {statvfs : String → Statvfs} {p : Part} {g : Gauge}
    (h : g ∈ partGauges conf pf usage statvfs p) :
    g.device_name = (if conf.use_mount then p.mountpoint else p.device) := by
  simp only [partGauges] at h
  obtain ⟨m, hm, rfl⟩ := List.mem_map.mp h
  rfl

theorem latencyGauges_device {conf : Conf} {valid : List ValidDisk} {key : String}
    {ctr : IoCounter} {g : Gauge} (h : g ∈ latencyGauges conf valid key ctr) :
    ∃ e, e ∈ valid ∧
      g.device_name = (if conf.use_mount then e.mountpoint else e.device) := by
  unfold latencyGauges at h
  cases hf : valid.filter (fun e => matchesDevPattern key e.device) with
  | nil =>
    rw [hf] at h
    cases h
  | cons e es =>
    rw [hf] at h
    have he : e ∈ valid :=
      (List.mem_filter.mp (by rw [hf]; exact List.mem_cons_self e es)).1
    simp only [List.mem_cons, List.not_mem_nil, or_false] at h
    rcases h with rfl | rfl
    · exact ⟨e, he, rfl⟩
    · exact ⟨e, he, rfl⟩

theorem filterOpt_sound {p : α → Option Bool} {l ys : List α}
    (h : filterOpt p l = some ys) {y : α} (hy : y ∈ ys) : y ∈ l ∧ p y = some true := by
  induction l generalizing ys with
  | nil =>
    injection h with h
    subst h
    cases hy
  | cons x xs ih =>
    simp only [filterOpt] at h
    cases hx : p x with
    | none =>
      rw [hx] at h
      cases h
    | some b =>
      rw [hx] at h
      cases hf : filterOpt p xs with
      | none =>
        rw [hf] at h
        cases h
      | some zs =>
        rw [hf] at h
        injection h with h
        subst h
        cases b with
        | true =>
          rw [if_pos rfl] at hy
          rcases List.mem_cons.mp hy with rfl | hy2
          · exact ⟨List.mem_cons_self y xs, hx⟩
          · obtain ⟨h1, h2⟩ := ih hf hy2
            exact ⟨List.mem_cons_of_mem x h1, h2⟩
        | false =>
          rw [if_neg (by decide)] at hy
          obtain ⟨h1, h2⟩ := ih hf hy
          exact ⟨List.mem_cons_of_mem x h1, h2⟩

theorem mapOpt_sound {f : α → Option β} {l : List α} {ys : List β}
    (h : mapOpt f l = some ys) {y : β} (hy : y ∈ ys) : ∃ x, x ∈ l ∧ f x = some y := by
  induction l generalizing ys with
  | nil =>
    injection h with h
    subst h
    cases hy
  | cons x xs ih =>
    simp only [mapOpt] at h
    cases hx : f x with
    | none =>
      rw [hx] at h
      cases h
    | some z =>
      rw [hx] at h
      cases hm : mapOpt f xs with
      | none =>
        rw [hm] at h
        cases h
      | some zs =>
        rw [hm] at h
        injection h with h
        subst h
        rcases List.mem_cons.mp hy with rfl | hy2
        · exact ⟨x, List.mem_cons_self x xs, hx⟩
        · obtain ⟨x2, hx2, hfx2⟩ := ih hm hy2
          exact ⟨x2, List.mem_cons_of_mem x hx2, hfx2⟩

theorem keep_some_true_shape {conf : Conf} {d : List String}
    (h : _keep_device conf d = some true) :
    ∃ d0 d1 d2 drest, d = d0 :: d1 :: d2 :: drest ∧ pyIsdigit d2 = true ∧
      _exclude_disk conf d0 d1 = false := by
  cases d with
  | nil =>
    injection h with h
    exact Bool.noConfusion h
  | cons x d1 =>
    cases d1 with
    | nil =>
      injection h with h
      exact Bool.noConfusion h
    | cons y d2 =>
      cases d2 with
      | nil => exact Option.noConfusion h
      | cons z rest =>
        have hband : (pyIsdigit z && !_exclude_disk conf x y) = true := by injection h
        obtain ⟨h1, h2⟩ := Bool.and_eq_true _ _ |>.mp hband
        exact ⟨x, y, z, rest, rfl, h1, by simpa using h2⟩

theorem deviceGauges_structure {conf : Conf} {statvfs : String → Statvfs}
    {d : List String} {gl : List Gauge} (h : deviceGauges conf statvfs d = some gl) :
    ∃ ms tags dn, _extract_metrics statvfs d = some ms ∧
      textIdentity conf d = some dn ∧
      gl = ms.map (fun mv => Gauge.mk mv.1 mv.2 tags dn) := by
  unfold deviceGauges at h
  cases ht : (if conf.tag_by_filesystem then (d[1]?).map (fun d1 => [d1]) else some []) with
  | none =>
    rw [ht] at h
    cases h
  | some tags =>
    rw [ht] at h
    cases hdn : (if conf.use_mount then d.getLast? else d[0]?) with
    | none =>
      rw [hdn] at h
      cases h
    | some dn =>
      rw [hdn] at h
      cases hex : _extract_metrics statvfs d with
      | none =>
        rw [hex] at h
        cases h
      | some ms =>
        rw [hex] at h
        injection h with h
        exact ⟨ms, tags, dn, rfl, hdn, h.symm⟩

theorem deviceGauges_device_name {conf : Conf} {statvfs : String → Statvfs}
    {d : List String} {gl : List Gauge} {g : Gauge}
    (hgl : deviceGauges conf statvfs d = some gl) (hg : g ∈ gl) :
    textIdentity conf d = some g.device_name := by
  obtain ⟨ms, tags, dn, hex, hdn, rfl⟩ := deviceGauges_structure hgl
  obtain ⟨m, hm, rfl⟩ := List.mem_map.mp hg
  exact hdn

/-- C1: the exclusion predicate holds iff one of the four OR rules does, the
structured path adds the win32 cdrom-or-empty-fstype rule, and every gauge
emitted by either discovery pass carries the identity of some candidate on
which the exclusion predicate is false — hence a device all of whose
candidate lines are excluded receives no metrics in the pass. -/
theorem exclusion_policy_or_rules :
    (∀ (conf : Conf) (name filesystem : String),
       _exclude_disk conf name filesystem = true ↔
         (name ∈ FAKE_DEVICES ∨ name ∈ conf.excluded_disks ∨
          conf.excluded_disk_re name = true ∨
          filesystem ∈ conf.excluded_filesystems)) ∧
    (∀ (conf : Conf) (pf : Plat) (p : Part),
       _exclude_disk_psutil conf pf p = true ↔
         ((pf.is_win32 = true ∧ ("cdrom" ∈ p.opts ∨ p.fstype = "")) ∨
          _exclude_disk conf p.device p.fstype = true)) ∧
    (∀ (conf : Conf) (pf : Plat) (parts : List Part) (usage : String → Usage)
       (statvfs : String → Statvfs) (ioCounters : List (String × IoCounter)) (g : Gauge),
       g ∈ collect_metrics_psutil conf pf parts usage statvfs ioCounters →
       ∃ p, p ∈ parts ∧ _exclude_disk_psutil conf pf p = false ∧
         g.device_name = (if conf.use_mount then p.mountpoint else p.device)) ∧
    (∀ (conf : Conf) (statvfs : String → Statvfs) (df : String) (gs : List Gauge) (g : Gauge),
       collect_metrics_manually conf statvfs df = some gs → g ∈ gs →
       ∃ d, d ∈ rawRecords df ∧ _keep_device conf d = some true ∧
         ∃ d0 d1 drest, d = d0 :: d1 :: drest ∧ _exclude_disk conf d0 d1 = false ∧
           textIdentity conf d = some g.device_name) := by
  refine ⟨?_, ?_, ?_, ?_⟩
  · intro conf name filesystem
    simp [_exclude_disk, or_assoc]
  · intro conf pf p
    simp [_exclude_disk_psutil]
  · intro conf pf parts usage statvfs ioCounters g hg
    simp only [collect_metrics_psutil] at hg
    rcases List.mem_append.mp hg with h1 | h1
    · obtain ⟨p, hp, hgp⟩ := mem_concatMap h1
      have hmem := List.mem_filter.mp hp
      have hex : _exclude_disk_psutil conf pf p = false := by simpa using hmem.2
      exact ⟨p, hmem.1, hex, partGauges_device_name hgp⟩
    · obtain ⟨kv, hkv, hgk⟩ := mem_concatMap h1
      obtain ⟨e, he, hdn⟩ := latencyGauges_device hgk
      rcases mem_buildValidDisks conf pf parts [] e he with h2 | h2
      · cases h2
      · obtain ⟨p, hp, hex, rfl⟩ := h2
        exact ⟨p, hp, hex, hdn⟩
  · intro conf statvfs df gs g hcm hg
    simp only [collect_metrics_manually] at hcm
    cases hld : _list_devices conf df with
    | none =>
      rw [hld] at hcm
      cases hcm
    | some devices =>
      rw [hld] at hcm
      have hcm2 : (match mapOpt (deviceGauges conf statvfs) devices with
          | none => none
          | some gss => some (concatMap id gss)) = some gs := hcm
      cases hmo : mapOpt (deviceGauges conf statvfs) devices with
      | none =>
        rw [hmo] at hcm2
        cases hcm2
      | some gss =>
        rw [hmo] at hcm2
        injection hcm2 with hcm2
        subst hcm2
        obtain ⟨gl, hgl, hggl⟩ := mem_concatMap hg
        obtain ⟨d, hd, hdg⟩ := mapOpt_sound hmo hgl
        obtain ⟨hdraw, hdkeep⟩ := filterOpt_sound hld hd
        obtain ⟨d0, d1, d2, drest, rfl, hdig, hexc⟩ := keep_some_true_shape hdkeep
        refine ⟨d0 :: d1 :: d2 :: drest, hdraw, hdkeep, d0, d1, d2 :: drest, rfl, hexc, ?_⟩
        exact deviceGauges_device_name hdg (by simpa using hggl)

theorem exclusion_policy_or_rules_witness :
    _exclude_disk confDefault "udev" "ext4" = true ∧
    _exclude_disk confDefault "/dev/sda1" "ext4" = false := by
  constructor
  · exact (exclusion_policy_or_rules.1 confDefault "udev" "ext4").mpr (Or.inl (by decide))
  · decide

theorem beq_false_of_ne {a b : String} (h : a ≠ b) : (a == b) = false := by
  cases hc : a == b with
  | false => rfl
  | true => exact absurd (eq_of_beq hc) h

theorem countG_append (p : α → Bool) (l1 l2 : List α) :
    countG p (l1 ++ l2) = countG p l1 + countG p l2 := by
  induction l1 with
  | nil => simp [countG]
  | cons g gs ih => simp [countG, ih, Nat.add_assoc]

theorem countG_eq_zero {p : α → Bool} {gs : List α}
    (h : ∀ g ∈ gs, p g = false) : countG p gs = 0 := by
  induction gs with
  | nil => rfl
  | cons g rest ih =>
    have hrest := ih (fun x hx => h x (List.mem_cons_of_mem g hx))
    simp [countG, h g (List.mem_cons_self g rest), hrest]

theorem countG_mono {p q : α → Bool} {gs : List α}
    (h : ∀ g, p g = true → q g = true) : countG p gs ≤ countG q gs := by
  induction gs with
  | nil => exact Nat.le_refl 0
  | cons g rest ih =>
    simp only [countG]
    cases hp : p g with
    | true =>
      rw [h g hp]
      simpa using Nat.add_le_add_left ih 1
    | false =>
      simp only [Bool.false_eq_true, if_false, Nat.zero_add]
      exact Nat.le_trans ih (Nat.le_add_left _ _)

theorem countG_map (p : β → Bool) (f : α → β) (l : List α) :
    countG p (l.map f) = countG (fun a => p (f a)) l := by
  induction l with
  | nil => rfl
  | cons x xs ih => simp [countG, ih]

theorem countG_keys_le_one (m : String) (tags : List String) (dn : String) :
    ∀ ms : List (String × ℚ), (ms.map Prod.fst).Nodup →
      countG (fun mv => (Gauge.mk mv.1 mv.2 tags dn).metric == m) ms ≤ 1 := by
  intro ms
  induction ms with
  | nil =>
    intro _
    exact Nat.zero_le 1
  | cons kv rest ih =>
    intro h
    simp only [List.map_cons, List.nodup_cons] at h
    obtain ⟨hk, hrest⟩ := h
    have hcons : countG (fun mv => (Gauge.mk mv.1 mv.2 tags dn).metric == m) (kv :: rest) =
        (if kv.1 == m then 1 else 0) +
          countG (fun mv => (Gauge.mk mv.1 mv.2 tags dn).metric == m) rest := rfl
    rw [hcons]
    by_cases hkm : kv.1 = m
    · have hzero : countG (fun mv => (Gauge.mk mv.1 mv.2 tags dn).metric == m) rest = 0 := by
        apply countG_eq_zero
        intro mv hmv
        show (mv.1 == m) = false
        apply beq_false_of_ne
        intro he
        exact hk (hkm ▸ he ▸ List.mem_map_of_mem Prod.fst hmv)
      rw [hzero, if_pos (by simp [hkm])]
    · rw [if_neg (by simpa using hkm)]
      simpa using ih hrest

theorem countG_le_one_of_nodup_keys (m : String) (tags : List String) (dn : String)
    (ms : List (String × ℚ)) (h : (ms.map Prod.fst).Nodup) :
    countG (fun g => g.metric == m) (ms.map (fun mv => Gauge.mk mv.1 mv.2 tags dn)) ≤ 1 := by
  rw [countG_map]
  exact countG_keys_le_one m tags dn ms h

theorem part_metrics_keys_nodup (pf : Plat) (usage : String → Usage)
    (statvfs : String → Statvfs) (part : Part) :
    ((_collect_part_metrics pf usage statvfs part).map Prod.fst).Nodup := by
  simp only [_collect_part_metrics, _collect_inodes_metrics]
  split
  · split
    · simp only [List.map_append, List.map_cons, List.map_nil]
      decide
    · simp only [List.map_append, List.map_cons, List.map_nil]
      decide
  · simp only [List.map_append, List.map_cons, List.map_nil]
    decide

theorem countG_partGauges_le_one (conf : Conf) (pf : Plat) (usage : String → Usage)
    (statvfs : String → Statvfs) (p : Part) (m : String) :
    countG (fun g => g.metric == m) (partGauges conf pf usage statvfs p) ≤ 1 := by
  have h := part_metrics_keys_nodup pf usage statvfs p
  simp only [partGauges]
  exact countG_le_one_of_nodup_keys m _ _ _ h

theorem latency_metric_names {conf : Conf} {valid : List ValidDisk}
    {ios : List (String × IoCounter)} {g : Gauge}
    (h : g ∈ collect_latency_metrics conf valid ios) :
    g.metric = METRIC_DISK "read_time_pct" ∨ g.metric = METRIC_DISK "write_time_pct" := by
  obtain ⟨kv, hkv, hg⟩ := mem_concatMap h
  unfold latencyGauges at hg
  cases hf : valid.filter (fun e => matchesDevPattern kv.1 e.device) with
  | nil =>
    rw [hf] at hg
    cases hg
  | cons e es =>
    rw [hf] at hg
    simp only [List.mem_cons, List.not_mem_nil, or_false] at hg
    rcases hg with rfl | rfl
    · exact Or.inl rfl
    · exact Or.inr rfl

theorem countG_concat_partGauges (conf : Conf) (pf : Plat) (usage : String → Usage)
    (statvfs : String → Statvfs) (m D : String) (l : List Part)
    (h : l.Pairwise (fun p q => partIdentity conf p ≠ partIdentity conf q)) :
    countG (fun g => g.metric == m && g.device_name == D)
      (concatMap (partGauges conf pf usage statvfs) l) ≤ 1 := by
  induction l with
  | nil => exact Nat.zero_le 1
  | cons p ps ih =>
    obtain ⟨hhead, htail⟩ := List.pairwise_cons.mp h
    simp only [concatMap]
    rw [countG_append]
    by_cases hD : partIdentity conf p = D
    · have c2 : countG (fun g => g.metric == m && g.device_name == D)
          (concatMap (partGauges conf pf usage statvfs) ps) = 0 := by
        apply countG_eq_zero
        intro g hg
        obtain ⟨q, hq, hgq⟩ := mem_concatMap hg
        have hdn : g.device_name = partIdentity conf q := partGauges_device_name hgq
        have hne : g.device_name ≠ D := by
          rw [hdn]
          intro he
          exact hhead q hq (hD.trans he.symm)
        rw [beq_false_of_ne hne]
        simp
      have c1 : countG (fun g => g.metric == m && g.device_name == D)
          (partGauges conf pf usage statvfs p) ≤ 1 :=
        Nat.le_trans
          (countG_mono (fun g hgt => (Bool.and_eq_true _ _ |>.mp hgt).1))
          (countG_partGauges_le_one conf pf usage statvfs p m)
      omega
    · have c1 : countG (fun g => g.metric == m && g.device_name == D)
          (partGauges conf pf usage statvfs p) = 0 := by
        apply countG_eq_zero
        intro g hg
        have hdn : g.device_name = partIdentity conf p := partGauges_device_name hg
        have hne : g.device_name ≠ D := by
          rw [hdn]
          exact hD
        rw [beq_false_of_ne hne]
        simp
      rw [c1]
      simpa using ih htail

theorem inodes_keys (statvfs : String → Statvfs) (mp : String) :
    (_collect_inodes_metrics statvfs mp).map Prod.fst =
      (if (statvfs mp).f_files ≠ 0 then
        [METRIC_INODE "total", METRIC_INODE "free", METRIC_INODE "used",
         METRIC_INODE "in_use"]
      else []) := by
  simp only [_collect_inodes_metrics]
  split
  · simp
  · simp

theorem extract_keys_nodup {statvfs : String → Statvfs} {d : List String}
    {ms : List (String × ℚ)} (h : _extract_metrics statvfs d = some ms) :
    (ms.map Prod.fst).Nodup := by
  simp only [_extract_metrics, Option.bind_eq_bind] at h
  cases h2 : d[2]? with
  | none => rw [h2] at h; cases h
  | some d2 =>
  rw [h2] at h
  simp only [Option.some_bind] at h
  cases e2 : pyFloat d2 with
  | none => rw [e2] at h; cases h
  | some q2 =>
  rw [e2] at h
  simp only [Option.some_bind] at h
  cases h3 : d[3]? with
  | none => rw [h3] at h; cases h
  | some d3 =>
  rw [h3] at h
  simp only [Option.some_bind] at h
  cases e3 : pyFloat d3 with
  | none => rw [e3] at h; cases h
  | some q3 =>
  rw [e3] at h
  simp only [Option.some_bind] at h
  cases h4 : d[4]? with
  | none => rw [h4] at h; cases h
  | some d4 =>
  rw [h4] at h
  simp only [Option.some_bind] at h
  cases e4 : pyFloat d4 with
  | none => rw [e4] at h; cases h
  | some q4 =>
  rw [e4] at h
  simp only [Option.some_bind] at h
  cases h5 : d[5]? with
  | none => rw [h5] at h; cases h
  | some d5 =>
  rw [h5] at h
  simp only [Option.some_bind] at h
  cases hiu : inUsePart d5 with
  | none => rw [hiu] at h; cases h
  | some iu =>
  rw [hiu] at h
  simp only [Option.some_bind] at h
  cases hl : d.getLast? with
  | none => rw [hl] at h; cases h
  | some last =>
  rw [hl] at h
  simp only [Option.some_bind] at h
  injection h with h
  subst h
  have hiukeys : iu.map Prod.fst = [METRIC_DISK "in_use"] ∨ iu.map Prod.fst = [] := by
    unfold inUsePart at hiu
    by_cases hpct : pctShaped d5 = true
    · rw [if_pos hpct] at hiu
      obtain ⟨p, hp, hiu2⟩ := Option.map_eq_some'.mp hiu
      subst hiu2
      exact Or.inl rfl
    · rw [if_neg hpct] at hiu
      injection hiu with hiu
      subst hiu
      exact Or.inr rfl
  simp only [List.map_append, List.map_cons, List.map_nil, List.nodup_append]
  rw [inodes_keys]
  rcases hiukeys with hk | hk <;> rw [hk] <;> split <;>
    simp_all <;> decide

theorem countG_deviceGauges_le_one {conf : Conf} {statvfs : String → Statvfs}
    {d : List String} {gl : List Gauge} (h : deviceGauges conf statvfs d = some gl)
    (m : String) : countG (fun g => g.metric == m) gl ≤ 1 := by
  obtain ⟨ms, tags, dn, hex, hdn, rfl⟩ := deviceGauges_structure h
  exact countG_le_one_of_nodup_keys m tags dn ms (extract_keys_nodup hex)

theorem countG_text_records (conf : Conf) (statvfs : String → Statvfs) (m D : String) :
    ∀ (devices : List (List String)) (gss : List (List Gauge)),
      mapOpt (deviceGauges conf statvfs) devices = some gss →
      devices.Pairwise (fun a b => textIdentity conf a ≠ textIdentity conf b) →
      countG (fun g => g.metric == m && g.device_name == D) (concatMap id gss) ≤ 1 := by
  intro devices
  induction devices with
  | nil =>
    intro gss h hp
    injection h with h
    subst h
    exact Nat.zero_le 1
  | cons d ds ih =>
    intro gss h hp
    simp only [mapOpt] at h
    cases hg1 : deviceGauges conf statvfs d with
    | none => rw [hg1] at h; cases h
    | some gl =>
      rw [hg1] at h
      cases hg2 : mapOpt (deviceGauges conf statvfs) ds with
      | none => rw [hg2] at h; cases h
      | some gss2 =>
        rw [hg2] at h
        injection h with h
        subst h
        obtain ⟨hhead, htail⟩ := List.pairwise_cons.mp hp
        simp only [concatMap, id_eq]
        rw [countG_append]
        by_cases hD : textIdentity conf d = some D
        · have c2 : countG (fun g => g.metric == m && g.device_name == D)
              (concatMap id gss2) = 0 := by
            apply countG_eq_zero
            intro g hg
            obtain ⟨gl2, hgl2, hggl2⟩ := mem_concatMap hg
            obtain ⟨d2, hd2, hdev2⟩ := mapOpt_sound hg2 hgl2
            have hdn2 := deviceGauges_device_name hdev2 (by simpa using hggl2)
            have hne : g.device_name ≠ D := by
              intro he
              exact hhead d2 hd2 (hD.trans (he ▸ hdn2).symm)
            rw [beq_false_of_ne hne]
            simp
          have c1 : countG (fun g => g.metric == m && g.device_name == D) gl ≤ 1 :=
            Nat.le_trans
              (countG_mono (fun g hgt => (Bool.and_eq_true _ _ |>.mp hgt).1))
              (countG_deviceGauges_le_one hg1 m)
          omega
        · have c1 : countG (fun g => g.metric == m && g.device_name == D) gl = 0 := by
            apply countG_eq_zero
            intro g hg
            have hdn := deviceGauges_device_name hg1 hg
            have hne : g.device_name ≠ D := by
              intro he
              exact hD (he ▸ hdn)
            rw [beq_false_of_ne hne]
            simp
          rw [c1]
          simpa using ih _ hg2 htail

/-- C9 counterexample: a mount table listing the same device on two
partition lines (as bind mounts do) makes the structured pass emit the
space metric set twice under the same device identity within one pass, so a
device does not appear in the emitted metric set at most once per pass. -/
theorem psutil_duplicate_device_lines_emit_twice :
    countG (fun g => g.metric == "system.disk.total" && g.device_name == "/dev/sda1")
      (collect_metrics_psutil confDefault (Plat.mk false false)
        [Part.mk "/dev/sda1" "ext4" "/" [], Part.mk "/dev/sda1" "ext4" "/mnt" []]
        (fun _ => Usage.mk 0 0 0 0) (fun _ => Statvfs.mk 0 0) []) = 2 := by
  decide

/-- C9 (amended): per pass exactly one of the two discovery paths runs,
selected by psutil availability; each discovered line is processed once and
each metric name is emitted at most once per accepted partition line; and
provided the discovered lines carry pairwise distinct device identities —
which a device mounted on several lines violates — every non-latency metric
name is emitted at most once per device identity on the structured pass,
and likewise on the textual pass for the kept records. -/
theorem metrics_once_per_device_line :
    (∀ (conf : Conf) (pf : Plat) (parts : List Part) (usage : String → Usage)
       (statvfs : String → Statvfs) (ioCounters : List (String × IoCounter)) (df : String),
       check conf true pf parts usage statvfs ioCounters df =
         some (collect_metrics_psutil conf pf parts usage statvfs ioCounters) ∧
       check conf false pf parts usage statvfs ioCounters df =
         collect_metrics_manually conf statvfs df) ∧
    (∀ (conf : Conf) (pf : Plat) (usage : String → Usage) (statvfs : String → Statvfs)
       (p : Part) (m : String),
       countG (fun g => g.metric == m) (partGauges conf pf usage statvfs p) ≤ 1) ∧
    (∀ (conf : Conf) (pf : Plat) (parts : List Part) (usage : String → Usage)
       (statvfs : String → Statvfs) (ioCounters : List (String × IoCounter)) (m D : String),
       (parts.filter (fun p => !_exclude_disk_psutil conf pf p)).Pairwise
         (fun p q => partIdentity conf p ≠ partIdentity conf q) →
       m ≠ METRIC_DISK "read_time_pct" → m ≠ METRIC_DISK "write_time_pct" →
       countG (fun g => g.metric == m && g.device_name == D)
         (collect_metrics_psutil conf pf parts usage statvfs ioCounters) ≤ 1) ∧
    (∀ (conf : Conf) (statvfs : String → Statvfs) (df : String) (gs : List Gauge)
       (devices : List (List String)) (m D : String),
       _list_devices conf df = some devices →
       devices.Pairwise (fun a b => textIdentity conf a ≠ textIdentity conf b) →
       collect_metrics_manually conf statvfs df = some gs →
       countG (fun g => g.metric == m && g.device_name == D) gs ≤ 1) := by
  refine ⟨?_, ?_, ?_, ?_⟩
  · intro conf pf parts usage statvfs ioCounters df
    exact ⟨rfl, rfl⟩
  · intro conf pf usage statvfs p m
    exact countG_partGauges_le_one conf pf usage statvfs p m
  · intro conf pf parts usage statvfs ioCounters m D hpair hm1 hm2
    simp only [collect_metrics_psutil]
    rw [countG_append]
    have hl : countG (fun g => g.metric == m && g.device_name == D)
        (collect_latency_metrics conf (buildValidDisks conf pf parts) ioCounters) = 0 := by
      apply countG_eq_zero
      intro g hg
      have hmet : g.metric ≠ m := by
        rcases latency_metric_names hg with h | h
        · rw [h]
          exact fun he => hm1 he.symm
        · rw [h]
          exact fun he => hm2 he.symm
      rw [beq_false_of_ne (by simpa using fun he => hmet (by rw [he]))]
      simp
    have hc := countG_concat_partGauges conf pf usage statvfs m D _ hpair
    omega
  · intro conf statvfs df gs devices m D hld hpair hcm
    simp only [collect_metrics_manually] at hcm
    rw [hld] at hcm
    have hcm2 : (match mapOpt (deviceGauges conf statvfs) devices with
        | none => none
        | some gss => some (concatMap id gss)) = some gs := hcm
    cases hmo : mapOpt (deviceGauges conf statvfs) devices with
    | none =>
      rw [hmo] at hcm2
      cases hcm2
    | some gss =>
      rw [hmo] at hcm2
      injection hcm2 with hcm2
      subst hcm2
      exact countG_text_records conf statvfs m D devices gss hmo hpair

theorem metrics_once_per_device_line_witness :
    countG (fun g => g.metric == "system.disk.total" && g.device_name == "/dev/sda1")
      (collect_metrics_psutil confDefault (Plat.mk false false)
        [Part.mk "/dev/sda1" "ext4" "/" []]
        (fun _ => Usage.mk 0 0 0 0) (fun _ => Statvfs.mk 0 0)
        [("sda1", IoCounter.mk 15 25)]) ≤ 1 :=
  metrics_once_per_device_line.2.2.1 confDefault (Plat.mk false false)
    [Part.mk "/dev/sda1" "ext4" "/" []]
    (fun _ => Usage.mk 0 0 0 0) (fun _ => Statvfs.mk 0 0)
    [("sda1", IoCounter.mk 15 25)] "system.disk.total" "/dev/sda1"
    (by decide) (by decide) (by decide)

end DiskCheck
